import Mathlib

/-!
# Verification of the eliza twitter-client orchestration core

Shallow embedding of the decision/orchestration logic of the repository
(`packages/client-twitter`): the Virtuals ACP paid-job broker
(`virtualsACP.ts`), the CARV data-enrichment adapter (`carvDATA.ts`), the
interaction loop and conversation-thread builder (`interactions.ts`), and
the tag parsers (`virtualsACP.ts`, `formatting.ts`).

Modelling conventions:
* JavaScript numbers that carry prices are modelled as rationals (`ℚ`);
  `BigInt` raw token amounts as `ℤ`.
* Asynchronous external collaborators (the Alchemy transfer index, the ACP
  marketplace client, the LLM) are modelled as explicit parameters holding
  the values their calls would return; a `thrown`/`none` value models a call
  that throws.
* The durable key-value cache is an association list keyed by tweet id.
-/

namespace ElizaTwitter

/-! ## ServiceJobRecord (ACPAgentDetails) and the cache, from `virtualsACP.ts` -/

/-- The `status` field of `ACPAgentDetails`
(`'pending_payment' | 'paid' | 'completed' | 'failed'`). -/
inductive Status where
  | pending_payment : Status
  | paid : Status
  | completed : Status
  | failed : Status
deriving DecidableEq, Repr

/-- `ACPAgentDetails` from `virtualsACP.ts`: the ServiceJobRecord cached per
originating tweet id.  `offeringSchema`/`requirement` are opaque payloads and
are modelled as strings; numeric JS fields are rationals. -/
structure ACPAgentDetails where
  agentId : ℕ
  agentName : String
  agentAddress : String
  offeringType : String
  offeringPrice : ℚ
  price : ℚ
  jobRequirement : String
  keyword : String
  requirement : String
  status : Status
  isSelfRespondACP : Bool
  arbusData : String
  createdAt : ℕ
deriving DecidableEq, Repr

/-- The durable key-value cache holding ACP agent details, keyed by the
originating tweet id (`acp/agent-details/${tweetId}`). -/
def Cache : Type := List (String × ACPAgentDetails)

/-- `getACPAgentDetails`: retrieve agent details from the cache by tweet id. -/
def getACPAgentDetails (cache : Cache) (tweetId : String) : Option ACPAgentDetails :=
  (List.find? (fun p => p.1 == tweetId) cache).map (fun p => p.2)

/-- `storeACPAgentDetails`: store agent details in the cache under the tweet id
(overwriting any previous entry for that key). -/
def storeACPAgentDetails (cache : Cache) (tweetId : String) (d : ACPAgentDetails) : Cache :=
  (tweetId, d) :: List.filter (fun p => !(p.1 == tweetId)) cache

/-- `updateACPAgentStatus`: read the record for `tweetId`, set its `status`
field to `newStatus` and store it back; if no record is found the cache is
left unchanged (the source logs a warning and does nothing). -/
def updateACPAgentStatus (cache : Cache) (tweetId : String) (newStatus : Status) : Cache :=
  match getACPAgentDetails cache tweetId with
  | some d => storeACPAgentDetails cache tweetId { d with status := newStatus }
  | none => cache

/-! ## Payment verification, from `checkForVirtualTokenPayment` -/

/-- One asset transfer as returned by `alchemy_getAssetTransfers`: the token
contract address (`transfer.rawContract.address`) and the raw integer amount
(`BigInt(transfer.rawContract.value)`). -/
structure Transfer where
  contractAddress : String
  rawValue : ℤ
deriving DecidableEq, Repr

/-- The Base-mainnet USDC token contract the source compares against
(lower-case literal in `checkForVirtualTokenPayment`). -/
def usdcAddress : String := "0x833589fcd6edb6e08f4c7c32d4f71b54bda02913"

/-- ASCII lower-casing of one character (the behaviour of JavaScript
`toLowerCase` on the ASCII alphabet, which is all that hex addresses and
bracketed tags use). -/
def asciiLower (c : Char) : Char :=
  if c.isUpper then Char.ofNat (c.toNat + 32) else c

/-- `s.toLowerCase()` on ASCII text. -/
def lowerString (s : String) : String := String.mk (s.data.map asciiLower)

/-- `parseUnits(x.toString(), 6)` from viem: scale a decimal number to the
token's 6-decimal precision.  Defined when the number has at most 6 decimal
places (its denominator divides 10^6); otherwise `parseUnits` throws, which
is modelled as `none`. -/
def parseUnits6 (q : ℚ) : Option ℤ :=
  if (q.den : ℤ) ∣ 10 ^ 6 then some (q.num * ((10 : ℤ) ^ 6 / (q.den : ℤ))) else none

/-- The per-transfer acceptance test of `checkForVirtualTokenPayment`:
skip transfers whose lower-cased contract address is not the USDC contract,
then accept exactly a raw value equal to the required scaled amount. -/
def transferMatchesPayment (requiredAmountWei : ℤ) (t : Transfer) : Bool :=
  lowerString t.contractAddress == usdcAddress && t.rawValue == requiredAmountWei

/-- The polling loop of `checkForVirtualTokenPayment`, starting at attempt
number `attempt` with `remaining` attempts left.  `fetchTransfers k` is the
transfer list returned by the Alchemy API on attempt `k` (`none` models a
failed request, which the source catches and retries). -/
def checkPaymentFrom (fetchTransfers : ℕ → Option (List Transfer))
    (requiredAmountWei : ℤ) : ℕ → ℕ → Bool
  | _, 0 => false
  | attempt, remaining + 1 =>
    match fetchTransfers attempt with
    | some transfers =>
      if transfers.any (transferMatchesPayment requiredAmountWei) then true
      else checkPaymentFrom fetchTransfers requiredAmountWei (attempt + 1) remaining
    | none => checkPaymentFrom fetchTransfers requiredAmountWei (attempt + 1) remaining

/-- `checkForVirtualTokenPayment` with the required amount already scaled:
poll the transfer index for up to `maxAttempts` attempts (attempts are
numbered from 1 as in the source) and report whether a matching transfer was
observed. -/
def checkForVirtualTokenPayment (fetchTransfers : ℕ → Option (List Transfer))
    (requiredAmountWei : ℤ) (maxAttempts : ℕ) : Bool :=
  checkPaymentFrom fetchTransfers requiredAmountWei 1 maxAttempts

/-- `checkForVirtualTokenPayment` as called by the payment-confirmation flow:
the required amount is a price in whole USDC, scaled via
`parseUnits(requiredAmount.toString(), 6)`; if scaling throws the outer catch
returns `false`.  The source default budget is 12 attempts. -/
def checkPaymentForPrice (fetchTransfers : ℕ → Option (List Transfer))
    (price : ℚ) : Bool :=
  match parseUnits6 price with
  | some w => checkForVirtualTokenPayment fetchTransfers w 12
  | none => false

/-! ## Unique price generation, from `generateUniquePrice` -/

/-- JavaScript `Math.round`: round half towards positive infinity. -/
def jsRound (x : ℚ) : ℤ := Int.floor (x + 1 / 2)

/-- `generateUniquePrice(basePrice)`: validate that the base price is a
positive number (otherwise throw, modelled as `none`), add the random decimal
`r = Math.random() * (0.009999 - 0.000001) + 0.000001` (so
`r ∈ [0.000001, 0.009999)`), and round the sum to 6 decimal places via
`Math.round((basePrice + r) * 1000000) / 1000000`.  The random draw is
passed in explicitly as `r`. -/
def generateUniquePrice (basePrice r : ℚ) : Option ℚ :=
  if basePrice ≤ 0 then none
  else some ((jsRound ((basePrice + r) * 1000000) : ℚ) / 1000000)

/-- Rounding a number to 6 decimal places (the round-trip the spec uses to
state 6-decimal stability), with JavaScript rounding. -/
def roundTo6 (q : ℚ) : ℚ := (jsRound (q * 1000000) : ℚ) / 1000000

/-! ## The payment-confirmation flow, from `processACPPaymentConfirmation` -/

/-- The fields of a `Tweet` the payment-confirmation flow consults: its own
id and the id of the conversation root. -/
structure Tweet where
  id : String
  conversationId : String
deriving DecidableEq, Repr

/-- The user-facing replies `processACPPaymentConfirmation` can produce.
Each constructor stands for one string template of the source:
* `noAgentDetails` — "Error: No agent details found. Please start a new ACP request."
* `alreadyProcessed` — "Error: Payment already processed or job already completed."
* `paymentNotReceived price wallet` — "Payment not received. Please send
  {price} $USDC on Base to {wallet} and reply to this tweet again."
* `arbusResult data` — the stored Arbus payload returned on the self-respond path.
* `jobCompleted resp` — "Payment received! Job completed successfully.\n\nSeller Response:\n{resp}"
* `jobCompletedNoData` — "Payment received! Job completed successfully. No additional data provided."
* `jobInitFailed` — "Payment received but failed to initiate the job. Please try again or contact support."
-/
inductive ConfirmReply where
  | noAgentDetails : ConfirmReply
  | alreadyProcessed : ConfirmReply
  | paymentNotReceived : ℚ → String → ConfirmReply
  | arbusResult : String → ConfirmReply
  | jobCompleted : String → ConfirmReply
  | jobCompletedNoData : ConfirmReply
  | jobInitFailed : ConfirmReply
deriving DecidableEq, Repr

/-- Outcome of one run of the payment-confirmation flow: the reply text, the
`success` flag, the sequence of `updateACPAgentStatus` writes performed on
the conversation-root record, and whether the payment ledger was polled. -/
structure ConfirmResult where
  reply : ConfirmReply
  success : Bool
  statusWrites : List Status
  polledPayment : Bool
deriving DecidableEq, Repr

/-- The external collaborators of the payment-confirmation flow:
the transfer index consulted by `checkForVirtualTokenPayment`, the receiving
wallet (`VIRTUALS_ACP_BUYER_WALLET_ADDRESS`), and the results of
`buyACPServiceWithStoredAgent` / `monitorACPServiceResponse`
(`buyJobId = none` models a failed job initiation; an empty
`buyImmediateResponse` models no immediate seller response). -/
structure PaymentEnv where
  fetchTransfers : ℕ → Option (List Transfer)
  buyerWallet : String
  buyJobId : Option ℕ
  buyImmediateResponse : String
  monitorResponse : String

/-- The `finalSellerResponse` of the buy path: the immediate seller response
captured during `buyACPServiceWithStoredAgent`, or, when empty, the result
of `monitorACPServiceResponse`. -/
def finalSellerResponse (env : PaymentEnv) : String :=
  if env.buyImmediateResponse ≠ "" then env.buyImmediateResponse else env.monitorResponse

/-- `processACPPaymentConfirmation` from `virtualsACP.ts`: look up the
ServiceJobRecord under the conversation-root id
(`originalTweetId = tweet.conversationId`); bail out with a terminal error
if there is none or its status is not `pending_payment`; otherwise poll the
ledger for the uniquified price; on timeout reply with the resend message
and leave the record untouched; on payment mark `paid`, then run either the
Arbus self-respond path or the marketplace buy path, marking `completed`
when a job was initiated. -/
def processACPPaymentConfirmation (env : PaymentEnv) (cache : Cache)
    (tweet : Tweet) : ConfirmResult × Cache :=
  match getACPAgentDetails cache tweet.conversationId with
  | none =>
    (⟨ConfirmReply.noAgentDetails, false, [], false⟩, cache)
  | some d =>
    if d.status ≠ Status.pending_payment then
      (⟨ConfirmReply.alreadyProcessed, false, [], false⟩, cache)
    else if checkPaymentForPrice env.fetchTransfers d.price = false then
      (⟨ConfirmReply.paymentNotReceived d.price env.buyerWallet, false, [], true⟩, cache)
    else
      if d.isSelfRespondACP then
        (⟨ConfirmReply.arbusResult d.arbusData, true,
          [Status.paid, Status.completed], true⟩,
          updateACPAgentStatus (updateACPAgentStatus cache tweet.conversationId Status.paid)
            tweet.conversationId Status.completed)
      else
        match env.buyJobId with
        | some _ =>
          if finalSellerResponse env ≠ "" then
            (⟨ConfirmReply.jobCompleted (finalSellerResponse env), true,
              [Status.paid, Status.completed], true⟩,
              updateACPAgentStatus (updateACPAgentStatus cache tweet.conversationId Status.paid)
                tweet.conversationId Status.completed)
          else
            (⟨ConfirmReply.jobCompletedNoData, true,
              [Status.paid, Status.completed], true⟩,
              updateACPAgentStatus (updateACPAgentStatus cache tweet.conversationId Status.paid)
                tweet.conversationId Status.completed)
        | none =>
          (⟨ConfirmReply.jobInitFailed, false, [Status.paid], true⟩,
            updateACPAgentStatus cache tweet.conversationId Status.paid)

/-! ## Batch ordering and watermark, from `handleTwitterInteractions` -/

/-- A candidate tweet in one pass of the interaction loop; only the
platform-assigned id string matters for ordering. -/
structure BatchTweet where
  id : String
deriving DecidableEq, Repr

/-- Decimal value of a digit string (accumulator form). -/
def digitsToNat : List Char → ℕ → ℕ
  | [], acc => acc
  | c :: cs, acc => digitsToNat cs (acc * 10 + (c.toNat - 48))

/-- `BigInt(tweet.id)` on a decimal id string (platform-assigned ids are
decimal digit strings; `BigInt` would throw on anything else). -/
def idNum (t : BatchTweet) : ℕ := digitsToNat t.id.data 0

/-- Lexicographic comparison of character lists: the order
`a.localeCompare(b)` induces on ASCII strings. -/
def charListLe : List Char → List Char → Bool
  | [], _ => true
  | _ :: _, [] => false
  | a :: as, b :: bs =>
    if a < b then true
    else if b < a then false
    else charListLe as bs

/-- The comparator `(a, b) => a.id.localeCompare(b.id)` as a binary
relation on candidate tweets. -/
def idLe (a b : BatchTweet) : Prop := charListLe a.id.data b.id.data = true

instance : DecidableRel idLe := fun _ _ => instDecidableEqBool _ _

/-- `uniqueTweetCandidates.sort((a, b) => a.id.localeCompare(b.id))`:
sort the candidate batch by string comparison of the id
(`localeCompare` on ASCII digit strings is lexicographic order). -/
def sortCandidates (ts : List BatchTweet) : List BatchTweet :=
  List.insertionSort idLe ts

/-- The processing loop over the sorted candidates: a tweet is handled when
`!lastCheckedTweetId || BigInt(tweet.id) > lastCheckedTweetId`, and after
handling, `lastCheckedTweetId = BigInt(tweet.id)`.  Returns the handled
tweets in order together with the final watermark. -/
def processBatch (last : Option ℕ) : List BatchTweet → List BatchTweet × Option ℕ
  | [] => ([], last)
  | t :: ts =>
    if (match last with | none => true | some w => decide (w < idNum t)) then
      let rest := processBatch (some (idNum t)) ts
      (t :: rest.1, rest.2)
    else
      processBatch last ts

/-- One pass of `handleTwitterInteractions` over a candidate batch: sort by
`localeCompare`, then run the watermark-guarded loop. -/
def handleBatch (last : Option ℕ) (candidates : List BatchTweet) :
    List BatchTweet × Option ℕ :=
  processBatch last (sortCandidates candidates)

/-! ## Conversation-thread construction, from `buildConversationThread` -/

/-- The fields of a tweet that thread construction consults. -/
structure ThreadTweet where
  id : String
  inReplyToStatusId : Option String
deriving DecidableEq, Repr

/-- The recursive `processThread` of `buildConversationThread`: `fuel` is
`maxReplies - depth` (the source stops when `depth >= maxReplies`); a tweet
already in the visited set stops the walk; otherwise it is recorded as
visited, unshifted onto the thread, and the walk follows
`inReplyToStatusId` through `getTweet` (a failed parent fetch stops the
walk).  Returns the visited set and the thread (root first). -/
def processThread (getTweet : String → Option ThreadTweet) :
    ℕ → List String → List ThreadTweet → ThreadTweet → List String × List ThreadTweet
  | 0, visited, thread, _ => (visited, thread)
  | fuel + 1, visited, thread, t =>
    if t.id ∈ visited then (visited, thread)
    else
      match t.inReplyToStatusId with
      | some parentId =>
        match getTweet parentId with
        | some parent =>
          processThread getTweet fuel (t.id :: visited) (t :: thread) parent
        | none => (t.id :: visited, t :: thread)
      | none => (t.id :: visited, t :: thread)

/-- `buildConversationThread(tweet, maxReplies = 10)`. -/
def buildConversationThread (getTweet : String → Option ThreadTweet)
    (tweet : ThreadTweet) (maxReplies : ℕ := 10) : List ThreadTweet :=
  (processThread getTweet maxReplies [] [] tweet).2

/-- A two-cycle of tweets: A is a reply to B and B is a reply to A.
Used to exercise the cycle guard of `buildConversationThread`. -/
def cycleGetTweet : String → Option ThreadTweet := fun s =>
  if s == "A" then some ⟨"A", some "B"⟩
  else if s == "B" then some ⟨"B", some "A"⟩
  else none

/-! ## Data enrichment, from `carvDATA.ts` -/

/-- The error object constructed by `queryLLMSQLAPI` on a non-2xx response. -/
structure CarvError where
  code : String
  message : String
  details : String
deriving DecidableEq, Repr

/-- `IAnalysisResult`: the body returned by the CARV LLM SQL API; the `data`
payload is opaque and modelled as a string. -/
structure IAnalysisResult where
  data : Option String
  error : Option CarvError
deriving DecidableEq, Repr

/-- The outcome of the `fetch` call inside `queryLLMSQLAPI`. -/
inductive FetchOutcome where
  | ok : IAnalysisResult → FetchOutcome
  | httpError : ℕ → String → FetchOutcome
  | thrown : FetchOutcome
deriving DecidableEq, Repr

/-- `queryLLMSQLAPI`: return `null` (`none`) when the CARV API key is
missing; on a non-ok response build an `IAnalysisResult` carrying an `error`
object with `message = "API error: {status}"`; a thrown fetch or JSON parse
is caught and yields `null`; otherwise return the parsed body. -/
def queryLLMSQLAPI (apiKey : Option String) (fetchResult : FetchOutcome) :
    Option IAnalysisResult :=
  match apiKey with
  | none => none
  | some _ =>
    match fetchResult with
    | FetchOutcome.ok body => some body
    | FetchOutcome.httpError status bodyText =>
      some ⟨none, some ⟨toString status, "API error: " ++ toString status, bodyText⟩⟩
    | FetchOutcome.thrown => none

/-- `analyzeData`: with no data return the no-data sentence; otherwise run
the model (`generated` is its output, `analysisThrows` models a thrown
call) and fall back to fixed sentences on an empty or failed generation. -/
def analyzeData (analysisThrows : Bool) (data : Option String)
    (generated : String) : String :=
  if analysisThrows then "Error analyzing the on-chain data."
  else
    match data with
    | none => "No on-chain data available for analysis."
    | some _ =>
      if generated = "" then "Could not generate analysis from the on-chain data."
      else generated

/-- `processCARVData`: the enrichment pipeline.  `shouldFetch` is the result
of the guarded decision call (`shouldFetchCARVData`), `queryResult` the
result of `queryLLMSQLAPI`, and `analysisThrows`/`analysisText` the model
call inside `analyzeData`.  Returns the `CARVInsights` fragment handed to
the composer. -/
def processCARVData (shouldFetch : Bool) (tweetText : String)
    (queryResult : Option IAnalysisResult) (analysisThrows : Bool)
    (analysisText : String) : String :=
  if shouldFetch = false then ""
  else if tweetText = "" then ""
  else
    match queryResult with
    | some r =>
      match r.data with
      | some payload =>
        let insights := analyzeData analysisThrows (some payload) analysisText
        if insights = "" then ""
        else "Based on the latest on-chain data:\n" ++ insights
      | none =>
        match r.error with
        | some e => "Could not generate on-chain analysis: " ++ e.message
        | none => "Could not generate on-chain analysis: No data returned from API."
    | none => "Could not generate on-chain analysis: No data returned from API."

/-- The enrichment step of `handleTweet`: when CARV is enabled the fragment
is `processCARVData`'s return value and a throw escaping the call is caught
and replaced by the empty string; when disabled the fragment is empty.
Composition always proceeds with this fragment. -/
def carvFragment (enableCarv : Bool) (outcome : Except String String) : String :=
  if enableCarv then
    match outcome with
    | Except.ok s => s
    | Except.error _ => ""
  else ""

/-! ## Tag parsers, from `virtualsACP.ts`, `formatting.ts` and the
classification gate in `interactions.ts` -/

/-- Whether `pat` occurs as a contiguous subsequence of `hay`. -/
def containsSeq (hay pat : List Char) : Bool :=
  List.isPrefixOf pat hay ||
    match hay with
    | [] => false
    | _ :: t => containsSeq t pat

/-- Case-insensitive substring test: the model of a `/.../i.test(text)`
regex match on a fixed bracketed tag. -/
def containsTagCI (text tag : String) : Bool :=
  containsSeq (lowerString text).data (lowerString tag).data

/-- The result record of `parseACPServiceResponse`. -/
structure ACPServiceDecision where
  useACP : Bool
  keyword : Option String
  requirement : Option String
deriving DecidableEq, Repr

/-- The `[KEYWORD:...]`/`[REQUIREMENT:...]` capture of
`parseACPServiceResponse` (`text.match(/\[TAG:(.*?)\]/i)`), modelled
case-sensitively on the canonical upper-case marker: the text up to the
first `]` after the first occurrence of the marker, trimmed. -/
def extractTagContent (text marker : String) : Option String :=
  match text.splitOn ("[" ++ marker ++ ":") with
  | _ :: rest :: _ => some (String.trim (String.mk (rest.data.takeWhile (fun c => c ≠ ']'))))
  | _ => none

/-- `parseACPServiceResponse`: `[SKIP_ACP]` wins and yields the skip result;
otherwise `[USE_ACP]` sets `useACP` and extracts the keyword and
requirement; any other text yields the default skip result. -/
def parseACPServiceResponse (text : String) : ACPServiceDecision :=
  if containsTagCI text "[SKIP_ACP]" then ⟨false, none, none⟩
  else if containsTagCI text "[USE_ACP]" then
    ⟨true, extractTagContent text "KEYWORD", extractTagContent text "REQUIREMENT"⟩
  else ⟨false, none, none⟩

/-- The result record of `parseFormatActionResponseFromText`. -/
structure FormatDecision where
  shouldFormat : Bool
  formattedText : Option String
deriving DecidableEq, Repr

/-- The `(.*)` capture of `/\[FORMAT_TWEET\]\s*(.*)/i`: the rest of the line
after the first occurrence of the marker, trimmed. -/
def formatCapture (text : String) : String :=
  match text.splitOn "[FORMAT_TWEET]" with
  | _ :: rest :: _ =>
    String.trim (String.mk (rest.data.takeWhile (fun c => c ≠ '\n')))
  | _ => ""

/-- `parseFormatActionResponseFromText`: a `[FORMAT_TWEET]` match yields the
captured formatted text; `[SKIP_FORMAT]` or any other text defaults to not
formatting. -/
def parseFormatActionResponseFromText (text : String) : FormatDecision :=
  if containsTagCI text "[FORMAT_TWEET]" then ⟨true, some (formatCapture text)⟩
  else ⟨false, none⟩

/-- The response decisions the classification stage can produce
(the bracketed options of `twitterShouldRespondTemplate`). -/
inductive ResponseDecision where
  | RESPOND : ResponseDecision
  | RESPOND_ACP : ResponseDecision
  | SELF_RESPOND_ACP : ResponseDecision
  | RESPOND_PAYMENT_CONFIRMED : ResponseDecision
  | IGNORE : ResponseDecision
  | STOP : ResponseDecision
deriving DecidableEq, Repr

/-- The string label the model-output parser hands back to `handleTweet`. -/
def ResponseDecision.label : ResponseDecision → String
  | ResponseDecision.RESPOND => "RESPOND"
  | ResponseDecision.RESPOND_ACP => "RESPOND_ACP"
  | ResponseDecision.SELF_RESPOND_ACP => "SELF_RESPOND_ACP"
  | ResponseDecision.RESPOND_PAYMENT_CONFIRMED => "RESPOND_PAYMENT_CONFIRMED"
  | ResponseDecision.IGNORE => "IGNORE"
  | ResponseDecision.STOP => "STOP"

/-- The recognized decision tags, most specific first (so that a tag whose
text contains another tag is matched correctly). -/
def decisionTags : List (String × ResponseDecision) :=
  [("[RESPOND_PAYMENT_CONFIRMED]", ResponseDecision.RESPOND_PAYMENT_CONFIRMED),
   ("[SELF_RESPOND_ACP]", ResponseDecision.SELF_RESPOND_ACP),
   ("[RESPOND_ACP]", ResponseDecision.RESPOND_ACP),
   ("[RESPOND]", ResponseDecision.RESPOND),
   ("[IGNORE]", ResponseDecision.IGNORE),
   ("[STOP]", ResponseDecision.STOP)]

/-- Modelled from the spec: the tag parser behind `generateShouldRespond`
lives in `@elizaos/core` and is not part of this repository's sources; the
spec states that the classification output is "matched against bracketed
tags" and that the "default/fallback is IGNORE when no tag is recognized",
with "ambiguous or missing tags default to IGNORE, never crash". -/
def parseResponseDecision (text : String) : ResponseDecision :=
  match List.find? (fun p => containsTagCI text p.1) decisionTags with
  | some p => p.2
  | none => ResponseDecision.IGNORE

/-- The gate in `handleTweet` (interactions.ts): proceed to enrichment,
composition and posting only when the decision label is one of the four
RESPOND-family labels; otherwise return without posting. -/
def shouldProceedToResponse (shouldRespond : String) : Bool :=
  shouldRespond == "RESPOND" || shouldRespond == "RESPOND_ACP" ||
    shouldRespond == "SELF_RESPOND_ACP" || shouldRespond == "RESPOND_PAYMENT_CONFIRMED"

/-- No RESPOND-family tag occurs in the model output. -/
def noRespondTag (text : String) : Prop :=
  containsTagCI text "[RESPOND]" = false ∧
  containsTagCI text "[RESPOND_ACP]" = false ∧
  containsTagCI text "[SELF_RESPOND_ACP]" = false ∧
  containsTagCI text "[RESPOND_PAYMENT_CONFIRMED]" = false

/-- Concrete transfer schedule for the payment-check witness: the matching
USDC transfer appears on the first attempt. -/
def fetchScheduleW : ℕ → Option (List Transfer) := fun k =>
  if k == 1 then some [⟨usdcAddress, 1500000⟩] else some []

/-- Concrete transfer schedule whose only transfer has the right amount but
a different token contract. -/
def fetchScheduleOther : ℕ → Option (List Transfer) := fun _ =>
  some [⟨"0x0000000000000000000000000000000000000000", 5⟩]

/-- A concrete pending-payment ServiceJobRecord used by witnesses. -/
def recordPendingW : ACPAgentDetails :=
  ⟨7, "AgentX", "0xseller", "analysis", 2, 2, "do things", "analysis",
    "{}", Status.pending_payment, false, "", 0⟩

/-- A concrete completed ServiceJobRecord used by witnesses. -/
def recordCompletedW : ACPAgentDetails :=
  { recordPendingW with status := Status.completed }

/-- A concrete payment environment in which no transfer is ever observed
and job initiation would fail. -/
def envNoPaymentW : PaymentEnv :=
  ⟨fun _ => some [], "0xbuyer", none, "", ""⟩

/-! # Theorems -/

/-- The polling loop reports success exactly when some attempt within the
budget (attempts `a, a+1, ..., a+m-1`) fetches a transfer list containing a
matching transfer. -/
theorem checkPaymentFrom_true_iff (fetchTransfers : ℕ → Option (List Transfer))
    (w : ℤ) : ∀ (m a : ℕ), checkPaymentFrom fetchTransfers w a m = true ↔
      ∃ k, a ≤ k ∧ k < a + m ∧ ∃ ts, fetchTransfers k = some ts ∧
        ts.any (transferMatchesPayment w) = true := by
  intro m
  induction m with
  | zero =>
    intro a
    simp only [checkPaymentFrom]
    constructor
    · intro h; cases h
    · rintro ⟨k, h1, h2, -⟩; omega
  | succ n ih =>
    intro a
    constructor
    · intro h
      rw [checkPaymentFrom] at h
      cases hf : fetchTransfers a with
      | some ts =>
        rw [hf] at h
        by_cases hany : ts.any (transferMatchesPayment w) = true
        · exact ⟨a, le_refl a, by omega, ts, hf, hany⟩
        · simp only [hany, if_false] at h
          obtain ⟨k, h1, h2, hrest⟩ := (ih (a + 1)).mp h
          exact ⟨k, by omega, by omega, hrest⟩
      | none =>
        rw [hf] at h
        obtain ⟨k, h1, h2, hrest⟩ := (ih (a + 1)).mp h
        exact ⟨k, by omega, by omega, hrest⟩
    · rintro ⟨k, h1, h2, ts, hts, hany⟩
      rw [checkPaymentFrom]
      cases hf : fetchTransfers a with
      | some ts0 =>
        by_cases hany0 : ts0.any (transferMatchesPayment w) = true
        · simp [hany0]
        · simp only [hany0, if_false]
          rcases Nat.eq_or_lt_of_le h1 with rfl | hlt
          · rw [hf] at hts; cases hts; exact absurd hany hany0
          · exact (ih (a + 1)).mpr ⟨k, by omega, by omega, ts, hts, hany⟩
      | none =>
        rcases Nat.eq_or_lt_of_le h1 with rfl | hlt
        · rw [hf] at hts; cases hts
        · exact (ih (a + 1)).mpr ⟨k, by omega, by omega, ts, hts, hany⟩

/-- C2.  The payment check accepts a USDC transfer exactly when its raw
integer value equals `parseUnits(requiredAmount, 6)`; a transfer of any
other raw value is rejected; success means some attempt within the budget
fetched a matching transfer, and if no fetched transfer matches, the check
returns `false` after exhausting the budget. -/
theorem checkForVirtualTokenPayment_exact (fetchTransfers : ℕ → Option (List Transfer))
    (req : ℚ) (w : ℤ) (n : ℕ) (_hw : parseUnits6 req = some w) :
    (∀ t : Transfer, lowerString t.contractAddress = usdcAddress →
      (transferMatchesPayment w t = true ↔ t.rawValue = w)) ∧
    (∀ t : Transfer, t.rawValue ≠ w → transferMatchesPayment w t = false) ∧
    (checkForVirtualTokenPayment fetchTransfers w n = true ↔
      ∃ k, 1 ≤ k ∧ k ≤ n ∧ ∃ ts, fetchTransfers k = some ts ∧
        ∃ t ∈ ts, transferMatchesPayment w t = true) ∧
    ((∀ k ts, fetchTransfers k = some ts → ∀ t ∈ ts, transferMatchesPayment w t = false) →
      checkForVirtualTokenPayment fetchTransfers w n = false) := by
  refine ⟨?_, ?_, ?_, ?_⟩
  · intro t ht
    simp [transferMatchesPayment, ht]
  · intro t ht
    simp [transferMatchesPayment, ht]
  · rw [checkForVirtualTokenPayment, checkPaymentFrom_true_iff]
    constructor
    · rintro ⟨k, h1, h2, ts, hts, hany⟩
      rw [List.any_eq_true] at hany
      obtain ⟨t, htmem, htm⟩ := hany
      exact ⟨k, h1, by omega, ts, hts, t, htmem, htm⟩
    · rintro ⟨k, h1, h2, ts, hts, t, htmem, htm⟩
      exact ⟨k, h1, by omega, ts, hts, List.any_eq_true.mpr ⟨t, htmem, htm⟩⟩
  · intro hall
    by_contra hne
    rw [Bool.not_eq_false] at hne
    rw [checkForVirtualTokenPayment, checkPaymentFrom_true_iff] at hne
    obtain ⟨k, -, -, ts, hts, hany⟩ := hne
    rw [List.any_eq_true] at hany
    obtain ⟨t, htmem, htm⟩ := hany
    exact absurd htm (by simp [hall k ts hts t htmem])

/-- Witness for C2: the uniquified price `1.5` scales to `1500000` raw
units, and a schedule delivering exactly that USDC transfer on attempt 1 is
accepted within a 2-attempt budget. -/
theorem checkForVirtualTokenPayment_exact_witness :
    parseUnits6 (3 / 2 : ℚ) = some 1500000 ∧
    checkForVirtualTokenPayment fetchScheduleW 1500000 2 = true := by
  refine ⟨by norm_num [parseUnits6], ?_⟩
  have h := checkForVirtualTokenPayment_exact fetchScheduleW (3 / 2) 1500000 2
    (by norm_num [parseUnits6])
  exact h.2.2.1.mpr ⟨1, le_refl 1, by omega,
    [⟨usdcAddress, 1500000⟩], by decide, ⟨usdcAddress, 1500000⟩, by decide, by decide⟩

/-- C10.  A transfer whose (case-insensitively compared) token contract is
not the Base USDC contract is never counted as payment, even when its raw
value equals the required amount; in particular a schedule containing only
transfers of other tokens makes the check return `false`. -/
theorem checkForVirtualTokenPayment_usdc_only (fetchTransfers : ℕ → Option (List Transfer))
    (w : ℤ) (n : ℕ)
    (hall : ∀ k ts, fetchTransfers k = some ts →
      ∀ t ∈ ts, lowerString t.contractAddress ≠ usdcAddress) :
    (∀ t : Transfer, lowerString t.contractAddress ≠ usdcAddress →
      transferMatchesPayment w t = false) ∧
    checkForVirtualTokenPayment fetchTransfers w n = false := by
  have hpt : ∀ t : Transfer, lowerString t.contractAddress ≠ usdcAddress →
      transferMatchesPayment w t = false := by
    intro t ht
    simp [transferMatchesPayment, ht]
  refine ⟨hpt, ?_⟩
  by_contra hne
  rw [Bool.not_eq_false, checkForVirtualTokenPayment, checkPaymentFrom_true_iff] at hne
  obtain ⟨k, -, -, ts, hts, hany⟩ := hne
  rw [List.any_eq_true] at hany
  obtain ⟨t, htmem, htm⟩ := hany
  exact absurd htm (by simp [hpt t (hall k ts hts t htmem)])

/-- Witness for C10: a transfer of another token whose raw value `5` equals
the required amount `5` is still rejected. -/
theorem checkForVirtualTokenPayment_usdc_only_witness :
    (∀ k ts, fetchScheduleOther k = some ts →
      ∀ t ∈ ts, lowerString t.contractAddress ≠ usdcAddress) ∧
    checkForVirtualTokenPayment fetchScheduleOther 5 3 = false := by
  have hall : ∀ k ts, fetchScheduleOther k = some ts →
      ∀ t ∈ ts, lowerString t.contractAddress ≠ usdcAddress := by
    intro k ts hts t htmem
    simp only [fetchScheduleOther, Option.some.injEq] at hts
    subst hts
    simp only [List.mem_singleton] at htmem
    subst htmem
    decide
  exact ⟨hall, (checkForVirtualTokenPayment_usdc_only fetchScheduleOther 5 3 hall).2⟩

/-- C1.  In every execution of the payment-confirmation flow the sequence of
status writes on the conversation-root record is `[]`, `[paid]` or
`[paid, completed]` — so a `pending_payment` record is never set to
`completed` without first having been set to `paid`, and the status only
moves forward; any write at all requires the looked-up record to be in
`pending_payment`; and a record whose status is not `pending_payment` is
never transitioned (the cache is returned unchanged). -/
theorem acp_status_forward (env : PaymentEnv) (cache : Cache) (tweet : Tweet) :
    ((processACPPaymentConfirmation env cache tweet).1.statusWrites = [] ∨
     (processACPPaymentConfirmation env cache tweet).1.statusWrites = [Status.paid] ∨
     (processACPPaymentConfirmation env cache tweet).1.statusWrites =
       [Status.paid, Status.completed]) ∧
    ((processACPPaymentConfirmation env cache tweet).1.statusWrites ≠ [] →
      ∃ d, getACPAgentDetails cache tweet.conversationId = some d ∧
        d.status = Status.pending_payment) ∧
    (∀ d, getACPAgentDetails cache tweet.conversationId = some d →
      d.status ≠ Status.pending_payment →
      (processACPPaymentConfirmation env cache tweet).2 = cache) := by
  refine ⟨?_, ?_, ?_⟩
  · unfold processACPPaymentConfirmation
    split
    · exact Or.inl rfl
    · split
      · exact Or.inl rfl
      · split
        · exact Or.inl rfl
        · split
          · exact Or.inr (Or.inr rfl)
          · split
            · repeat' split
              all_goals exact Or.inr (Or.inr rfl)
            · exact Or.inr (Or.inl rfl)
  · unfold processACPPaymentConfirmation
    split
    · intro h
      exact absurd rfl h
    · rename_i d hget
      split
      · intro h
        exact absurd rfl h
      · rename_i hst
        rw [Classical.not_not] at hst
        split
        · intro h
          exact absurd rfl h
        · intro _
          exact ⟨d, hget, hst⟩
  · intro d hget hne
    unfold processACPPaymentConfirmation
    split
    · rfl
    · rename_i d' hget'
      rw [hget] at hget'
      cases hget'
      split
      · rfl
      · rename_i h
        exact absurd hne h

/-- C6.  The payment-confirmation broker looks the ServiceJobRecord up under
the conversation-root id, not under the confirmation tweet's own id (the
result is invariant under replacing the tweet's own id); with no record, or
a record whose status is not `pending_payment`, it returns the terminal
error reply with `success = false`, performs no status write, does not poll
the payment ledger, and leaves the cache unchanged. -/
theorem acp_confirmation_lookup_root (env : PaymentEnv) (cache : Cache) (tweet : Tweet) :
    (∀ newId, processACPPaymentConfirmation env cache ⟨newId, tweet.conversationId⟩ =
      processACPPaymentConfirmation env cache tweet) ∧
    (getACPAgentDetails cache tweet.conversationId = none →
      processACPPaymentConfirmation env cache tweet =
        (⟨ConfirmReply.noAgentDetails, false, [], false⟩, cache)) ∧
    (∀ d, getACPAgentDetails cache tweet.conversationId = some d →
      d.status ≠ Status.pending_payment →
      processACPPaymentConfirmation env cache tweet =
        (⟨ConfirmReply.alreadyProcessed, false, [], false⟩, cache)) := by
  refine ⟨?_, ?_, ?_⟩
  · intro newId
    cases tweet
    rfl
  · intro hget
    unfold processACPPaymentConfirmation
    rw [hget]
  · intro d hget hst
    unfold processACPPaymentConfirmation
    rw [hget]
    exact if_pos hst

/-- Witness for C6: with a completed record under the conversation root,
looking up via a confirmation tweet of any id yields the terminal error and
an unchanged cache. -/
theorem acp_confirmation_lookup_root_witness :
    getACPAgentDetails [("root1", recordCompletedW)] "root1" = some recordCompletedW ∧
    recordCompletedW.status ≠ Status.pending_payment ∧
    processACPPaymentConfirmation envNoPaymentW [("root1", recordCompletedW)]
        ⟨"reply9", "root1"⟩ =
      (⟨ConfirmReply.alreadyProcessed, false, [], false⟩, [("root1", recordCompletedW)]) := by
  refine ⟨rfl, by decide, ?_⟩
  exact (acp_confirmation_lookup_root envNoPaymentW [("root1", recordCompletedW)]
    ⟨"reply9", "root1"⟩).2.2 recordCompletedW rfl (by decide)

/-- C7.  When the record is `pending_payment` and the polling budget is
exhausted with no fetched transfer matching the scaled uniquified price, the
flow replies with the resend-payment message, reports failure, performs no
status write, and leaves the cache (hence the record, still
`pending_payment`) unchanged. -/
theorem acp_payment_timeout_frame (env : PaymentEnv) (cache : Cache) (tweet : Tweet)
    (d : ACPAgentDetails)
    (hget : getACPAgentDetails cache tweet.conversationId = some d)
    (hst : d.status = Status.pending_payment)
    (hnomatch : ∀ w, parseUnits6 d.price = some w →
      ∀ k ts, env.fetchTransfers k = some ts →
        ∀ t ∈ ts, transferMatchesPayment w t = false) :
    processACPPaymentConfirmation env cache tweet =
      (⟨ConfirmReply.paymentNotReceived d.price env.buyerWallet, false, [], true⟩, cache) := by
  have hcheck : checkPaymentForPrice env.fetchTransfers d.price = false := by
    unfold checkPaymentForPrice
    cases hpu : parseUnits6 d.price with
    | none => rfl
    | some w =>
      exact (checkForVirtualTokenPayment_exact env.fetchTransfers d.price w 12 hpu).2.2.2
        (hnomatch w hpu)
  unfold processACPPaymentConfirmation
  rw [hget]
  simp only [hst, ne_eq, not_true_eq_false, if_false, hcheck, if_true]

/-- Witness for C7: a pending record priced at 2 USDC, an environment whose
ledger never shows any transfer — the flow returns the resend message and
the cache is unchanged. -/
theorem acp_payment_timeout_frame_witness :
    getACPAgentDetails [("root1", recordPendingW)] "root1" = some recordPendingW ∧
    recordPendingW.status = Status.pending_payment ∧
    processACPPaymentConfirmation envNoPaymentW [("root1", recordPendingW)]
        ⟨"reply9", "root1"⟩ =
      (⟨ConfirmReply.paymentNotReceived recordPendingW.price envNoPaymentW.buyerWallet,
        false, [], true⟩, [("root1", recordPendingW)]) := by
  refine ⟨rfl, rfl, ?_⟩
  exact acp_payment_timeout_frame envNoPaymentW [("root1", recordPendingW)]
    ⟨"reply9", "root1"⟩ recordPendingW rfl rfl
    (by intro w hw k ts hts t htmem
        simp only [envNoPaymentW, Option.some.injEq] at hts
        subst hts
        cases htmem)

/-- Counterexample for C3: for the positive base price `p = 10^-7` (not a
multiple of `10^-6`) and the admissible random offset `r = 1.1 * 10^-6`,
`generateUniquePrice` returns `0.000001`, which is strictly below
`p + 0.000001` — the claimed interval `[p+0.000001, p+0.009999]` does not
hold for every positive base price. -/
theorem generateUniquePrice_interval_cex :
    generateUniquePrice (1 / 10 ^ 7) (11 / 10 ^ 7) = some (1 / 1000000) ∧
    (1 / 1000000 : ℚ) ≤ 11 / 10 ^ 7 ∧ (11 / 10 ^ 7 : ℚ) ≤ 9999 / 1000000 ∧
    (0 : ℚ) < 1 / 10 ^ 7 ∧
    (1 / 1000000 : ℚ) < 1 / 10 ^ 7 + 1 / 1000000 := by
  refine ⟨?_, by norm_num, by norm_num, by norm_num, by norm_num⟩
  unfold generateUniquePrice
  rw [if_neg (by norm_num)]
  have h1 : ((1 / 10 ^ 7 : ℚ) + 11 / 10 ^ 7) * 1000000 = 6 / 5 := by norm_num
  have h2 : jsRound (6 / 5) = 1 := by
    unfold jsRound
    rw [Int.floor_eq_iff]
    constructor <;> norm_num
  rw [h1, h2]
  norm_num

/-- C3 (amended).  For a positive base price that is a whole multiple of
`10^-6` and a random offset in the generated range, the unique price lands
in `[p+0.000001, p+0.009999]`, is stable under rounding to 6 decimal
places, the function throws on every non-positive base price, and two draws
whose offsets round to different multiples of `10^-6` give different
prices. -/
theorem generateUniquePrice_amended (p r : ℚ) (m : ℤ)
    (hm : p = (m : ℚ) / 1000000) (hp : 0 < p)
    (hr1 : 1 / 1000000 ≤ r) (hr2 : r < 9999 / 1000000) :
    ∃ u, generateUniquePrice p r = some u ∧
      p + 1 / 1000000 ≤ u ∧ u ≤ p + 9999 / 1000000 ∧
      roundTo6 u = u ∧
      (∀ q : ℚ, q ≤ 0 → generateUniquePrice q r = none) ∧
      (∀ r' : ℚ, jsRound (r * 1000000) ≠ jsRound (r' * 1000000) →
        generateUniquePrice p r ≠ generateUniquePrice p r') := by
  have hsplit : ∀ s : ℚ, jsRound ((p + s) * 1000000) = m + jsRound (s * 1000000) := by
    intro s
    unfold jsRound
    have h1 : (p + s) * 1000000 + 1 / 2 = (m : ℚ) + (s * 1000000 + 1 / 2) := by
      rw [hm]; ring
    rw [h1, Int.floor_int_add]
  have hj1 : 1 ≤ jsRound (r * 1000000) := by
    unfold jsRound
    rw [Int.le_floor]
    push_cast
    linarith
  have hj2 : jsRound (r * 1000000) ≤ 9999 := by
    have hfl : ((jsRound (r * 1000000) : ℤ) : ℚ) ≤ r * 1000000 + 1 / 2 :=
      Int.floor_le _
    have hq : ((jsRound (r * 1000000) : ℤ) : ℚ) < ((10000 : ℤ) : ℚ) := by
      push_cast
      linarith
    have h4 : jsRound (r * 1000000) < 10000 := by exact_mod_cast hq
    omega
  have hval : generateUniquePrice p r =
      some (((m + jsRound (r * 1000000) : ℤ) : ℚ) / 1000000) := by
    unfold generateUniquePrice
    rw [if_neg (not_le.mpr hp), hsplit r]
  refine ⟨((m + jsRound (r * 1000000) : ℤ) : ℚ) / 1000000, hval, ?_, ?_, ?_, ?_, ?_⟩
  · rw [hm]
    have h1 : (1 : ℚ) ≤ ((jsRound (r * 1000000) : ℤ) : ℚ) := by exact_mod_cast hj1
    push_cast
    linarith
  · rw [hm]
    have h2 : ((jsRound (r * 1000000) : ℤ) : ℚ) ≤ 9999 := by exact_mod_cast hj2
    push_cast
    linarith
  · unfold roundTo6
    have hcancel : ((m + jsRound (r * 1000000) : ℤ) : ℚ) / 1000000 * 1000000 =
        ((m + jsRound (r * 1000000) : ℤ) : ℚ) := by
      field_simp
    rw [hcancel]
    have hint : jsRound ((m + jsRound (r * 1000000) : ℤ) : ℚ) =
        m + jsRound (r * 1000000) := by
      unfold jsRound
      rw [Int.floor_int_add]
      have h0 : ⌊(1 / 2 : ℚ)⌋ = 0 := by
        rw [Int.floor_eq_iff]
        constructor <;> norm_num
      rw [h0, add_zero]
    rw [hint]
  · intro q hq
    unfold generateUniquePrice
    rw [if_pos hq]
  · intro r' hne heq
    have hval' : generateUniquePrice p r' =
        some (((m + jsRound (r' * 1000000) : ℤ) : ℚ) / 1000000) := by
      unfold generateUniquePrice
      rw [if_neg (not_le.mpr hp), hsplit r']
    rw [hval, hval', Option.some.injEq, div_eq_div_iff (by norm_num) (by norm_num)] at heq
    field_simp at heq
    exact hne (by exact_mod_cast heq)

/-- Witness for C3 (amended): base price 1 USDC (`m = 10^6`) and offset
`0.000001`. -/
theorem generateUniquePrice_amended_witness :
    ((1 : ℚ) = ((1000000 : ℤ) : ℚ) / 1000000 ∧ (0 : ℚ) < 1 ∧
      (1 / 1000000 : ℚ) ≤ 1 / 1000000 ∧ (1 / 1000000 : ℚ) < 9999 / 1000000) ∧
    ∃ u, generateUniquePrice 1 (1 / 1000000) = some u ∧
      1 + 1 / 1000000 ≤ u ∧ u ≤ 1 + 9999 / 1000000 ∧
      roundTo6 u = u ∧
      (∀ q : ℚ, q ≤ 0 → generateUniquePrice q (1 / 1000000) = none) ∧
      (∀ r' : ℚ, jsRound ((1 / 1000000) * 1000000) ≠ jsRound (r' * 1000000) →
        generateUniquePrice 1 (1 / 1000000) ≠ generateUniquePrice 1 r') :=
  ⟨⟨by norm_num, by norm_num, by norm_num, by norm_num⟩,
    generateUniquePrice_amended 1 (1 / 1000000) 1000000 (by norm_num) (by norm_num)
      (by norm_num) (by norm_num)⟩

/-- Totality of the lexicographic comparator. -/
theorem charListLe_total : ∀ as bs, charListLe as bs = true ∨ charListLe bs as = true := by
  intro as
  induction as with
  | nil => intro bs; left; rfl
  | cons a as ih =>
    intro bs
    cases bs with
    | nil => right; rfl
    | cons b bs =>
      rcases lt_trichotomy a b with h | h | h
      · left; simp [charListLe, h]
      · subst h
        rcases ih bs with h2 | h2
        · left; simp [charListLe, lt_irrefl, h2]
        · right; simp [charListLe, lt_irrefl, h2]
      · right; simp [charListLe, h]

/-- Transitivity of the lexicographic comparator. -/
theorem charListLe_trans : ∀ as bs cs, charListLe as bs = true →
    charListLe bs cs = true → charListLe as cs = true := by
  intro as
  induction as with
  | nil => intro bs cs h1 h2; rfl
  | cons a as ih =>
    intro bs cs h1 h2
    cases bs with
    | nil => simp [charListLe] at h1
    | cons b bs =>
      cases cs with
      | nil => simp [charListLe] at h2
      | cons c cs =>
        rcases lt_trichotomy a b with hab | hab | hab
        · rcases lt_trichotomy b c with hbc | hbc | hbc
          · simp [charListLe, lt_trans hab hbc]
          · subst hbc; simp [charListLe, hab]
          · rw [charListLe, if_neg (asymm hbc), if_pos hbc] at h2; cases h2
        · subst hab
          rw [charListLe, if_neg (lt_irrefl a)] at h1
          simp only [if_neg (lt_irrefl a)] at h1
          rcases lt_trichotomy a c with hac | hac | hac
          · simp [charListLe, hac]
          · subst hac
            rw [charListLe, if_neg (lt_irrefl a)] at h2 ⊢
            simp only [if_neg (lt_irrefl a)] at h2 ⊢
            exact ih bs cs h1 h2
          · rw [charListLe, if_neg (asymm hac), if_pos hac] at h2; cases h2
        · rw [charListLe, if_neg (asymm hab), if_pos hab] at h1; cases h1

/-- Unfolding lemma for one step of the watermark-guarded loop. -/
theorem processBatch_cons (last : Option ℕ) (t : BatchTweet) (ts : List BatchTweet) :
    processBatch last (t :: ts) =
      if (match last with | none => true | some w => decide (w < idNum t)) then
        (t :: (processBatch (some (idNum t)) ts).1, (processBatch (some (idNum t)) ts).2)
      else processBatch last ts := rfl

/-- The handled subsequence of a batch is strictly increasing in numeric
id, and every handled tweet is numerically above the initial watermark. -/
theorem processBatch_chain_lb : ∀ (ts : List BatchTweet) (last : Option ℕ),
    List.Chain' (fun a b => idNum a < idNum b) (processBatch last ts).1 ∧
    (∀ w, last = some w → ∀ x ∈ (processBatch last ts).1, w < idNum x) := by
  intro ts
  induction ts with
  | nil =>
    intro last
    exact ⟨List.chain'_nil, by intro w _ x hx; cases hx⟩
  | cons t ts ih =>
    intro last
    cases last with
    | none =>
      rw [processBatch_cons, if_pos rfl]
      obtain ⟨hchain, hlb⟩ := ih (some (idNum t))
      have hlb2 := hlb (idNum t) rfl
      refine ⟨?_, ?_⟩
      · rw [List.chain'_cons']
        exact ⟨fun y hy => hlb2 y (List.mem_of_mem_head? hy), hchain⟩
      · intro w hw
        cases hw
    | some w =>
      by_cases hw : w < idNum t
      · rw [processBatch_cons, if_pos (decide_eq_true hw)]
        obtain ⟨hchain, hlb⟩ := ih (some (idNum t))
        have hlb2 := hlb (idNum t) rfl
        refine ⟨?_, ?_⟩
        · rw [List.chain'_cons']
          exact ⟨fun y hy => hlb2 y (List.mem_of_mem_head? hy), hchain⟩
        · intro w2 hw2 x hx
          cases hw2
          rcases List.mem_cons.mp hx with rfl | hx2
          · exact hw
          · exact lt_trans hw (hlb2 x hx2)
      · rw [processBatch_cons, if_neg (fun h => hw (of_decide_eq_true h))]
        exact ih (some w)

/-- The final watermark is at least the initial one. -/
theorem processBatch_watermark_le : ∀ (ts : List BatchTweet) (w : ℕ),
    ∃ w2, (processBatch (some w) ts).2 = some w2 ∧ w ≤ w2 := by
  intro ts
  induction ts with
  | nil => intro w; exact ⟨w, rfl, le_refl w⟩
  | cons t ts ih =>
    intro w
    by_cases hw : w < idNum t
    · rw [processBatch_cons, if_pos (decide_eq_true hw)]
      obtain ⟨w2, hw2, hle⟩ := ih (idNum t)
      exact ⟨w2, hw2, le_trans (le_of_lt hw) hle⟩
    · rw [processBatch_cons, if_neg (fun h => hw (of_decide_eq_true h))]
      exact ih w

/-- A batch tweet that was not handled is numerically bounded by the final
watermark. -/
theorem processBatch_skipped : ∀ (ts : List BatchTweet) (last : Option ℕ)
    (t : BatchTweet), t ∈ ts → t ∉ (processBatch last ts).1 →
    ∃ w2, (processBatch last ts).2 = some w2 ∧ idNum t ≤ w2 := by
  intro ts
  induction ts with
  | nil => intro last t ht; cases ht
  | cons t0 ts ih =>
    intro last t ht hnp
    cases last with
    | none =>
      rw [processBatch_cons, if_pos rfl] at hnp ⊢
      simp only [List.mem_cons, not_or] at hnp
      obtain ⟨hne, hnp2⟩ := hnp
      rcases List.mem_cons.mp ht with rfl | ht2
      · exact absurd rfl hne
      · exact ih (some (idNum t0)) t ht2 (by simpa using hnp2)
    | some w =>
      by_cases hw : w < idNum t0
      · rw [processBatch_cons, if_pos (decide_eq_true hw)] at hnp ⊢
        simp only [List.mem_cons, not_or] at hnp
        obtain ⟨hne, hnp2⟩ := hnp
        rcases List.mem_cons.mp ht with rfl | ht2
        · exact absurd rfl hne
        · exact ih (some (idNum t0)) t ht2 (by simpa using hnp2)
      · rw [processBatch_cons, if_neg (fun h => hw (of_decide_eq_true h))] at hnp ⊢
        rcases List.mem_cons.mp ht with rfl | ht2
        · obtain ⟨w2, hw2, hle⟩ := processBatch_watermark_le ts w
          exact ⟨w2, hw2, le_trans (not_lt.mp hw) hle⟩
        · exact ih (some w) t ht2 hnp

/-- Counterexample for C4: with fresh candidates of ids `"9"` and `"10"`
and no prior watermark, `localeCompare` sorting iterates `"10"` before
`"9"` (numerically descending), and the watermark advanced to 10 after
handling `"10"` causes the never-handled candidate `"9"` to be skipped —
the batch is not processed in ascending numeric identifier order. -/
theorem handleBatch_order_cex :
    (sortCandidates [⟨"9"⟩, ⟨"10"⟩]).map BatchTweet.id = ["10", "9"] ∧
    idNum ⟨"9"⟩ < idNum ⟨"10"⟩ ∧
    (handleBatch none [⟨"9"⟩, ⟨"10"⟩]).1.map BatchTweet.id = ["10"] ∧
    BatchTweet.mk "9" ∉ (handleBatch none [⟨"9"⟩, ⟨"10"⟩]).1 := by
  refine ⟨by decide, by decide, by decide, by decide⟩

/-- C4 (amended).  One pass iterates the candidates in ascending
`localeCompare` (lexicographic) order of the id string; the subsequence
actually handled is strictly increasing in numeric id and lies strictly
above the initial watermark; and a candidate is left unhandled only when
its numeric id does not exceed the final watermark (so the watermark never
causes a tweet numerically above it to be skipped) — but, as the
counterexample shows, ascending *numeric* order and completeness fail for
ids of different lengths. -/
theorem handleBatch_amended (last : Option ℕ) (batch : List BatchTweet) :
    List.Sorted idLe (sortCandidates batch) ∧
    List.Chain' (fun a b => idNum a < idNum b) (handleBatch last batch).1 ∧
    (∀ w, last = some w → ∀ x ∈ (handleBatch last batch).1, w < idNum x) ∧
    (∀ t ∈ sortCandidates batch, t ∉ (handleBatch last batch).1 →
      ∃ w2, (handleBatch last batch).2 = some w2 ∧ idNum t ≤ w2) := by
  haveI htot : IsTotal BatchTweet idLe := ⟨fun a b => charListLe_total _ _⟩
  haveI htrans : IsTrans BatchTweet idLe := ⟨fun a b c => charListLe_trans _ _ _⟩
  obtain ⟨hchain, hlb⟩ := processBatch_chain_lb (sortCandidates batch) last
  exact ⟨List.sorted_insertionSort idLe batch, hchain, hlb,
    fun t ht hnp => processBatch_skipped (sortCandidates batch) last t ht hnp⟩


/-- Counterexample for C5: with the CARV API credential missing
(`queryLLMSQLAPI` returns `null`), the enrichment fragment handed to the
composer is the diagnostic sentence
"Could not generate on-chain analysis: No data returned from API." —
a non-empty string, not the empty string the claim requires. -/
theorem processCARVData_failure_cex :
    processCARVData true "gm" (queryLLMSQLAPI none FetchOutcome.thrown) false "x" =
      "Could not generate on-chain analysis: No data returned from API." ∧
    processCARVData true "gm" (queryLLMSQLAPI none FetchOutcome.thrown) false "x" ≠ "" := by
  exact ⟨rfl, by decide⟩

/-- C5 (amended).  Every enrichment failure — missing API credential, a
thrown/timed-out fetch, or an HTTP error — degrades to a fixed non-empty
diagnostic string (prefixed "Could not generate on-chain analysis:"), never
an exception; only a throw escaping `processCARVData` itself is mapped to
the empty string by the `handleTweet` catch, and composition proceeds with
the fragment in all cases. -/
theorem processCARVData_failure_degrades (text analysisText apiKey bodyText : String)
    (f : FetchOutcome) (analysisThrows : Bool) (status : ℕ)
    (htext : text ≠ "") :
    processCARVData true text (queryLLMSQLAPI none f) analysisThrows analysisText =
      "Could not generate on-chain analysis: No data returned from API." ∧
    processCARVData true text (queryLLMSQLAPI (some apiKey) FetchOutcome.thrown)
        analysisThrows analysisText =
      "Could not generate on-chain analysis: No data returned from API." ∧
    processCARVData true text
        (queryLLMSQLAPI (some apiKey) (FetchOutcome.httpError status bodyText))
        analysisThrows analysisText =
      "Could not generate on-chain analysis: " ++ ("API error: " ++ toString status) ∧
    processCARVData true text (queryLLMSQLAPI (some apiKey) FetchOutcome.thrown)
        analysisThrows analysisText ≠ "" ∧
    processCARVData true text
        (queryLLMSQLAPI (some apiKey) (FetchOutcome.httpError status bodyText))
        analysisThrows analysisText ≠ "" ∧
    (∀ err : String, carvFragment true (Except.error err) = "") := by
  refine ⟨?_, ?_, ?_, ?_, ?_, fun _ => rfl⟩
  · simp [processCARVData, queryLLMSQLAPI, htext]
  · simp [processCARVData, queryLLMSQLAPI, htext]
  · simp [processCARVData, queryLLMSQLAPI, htext]
  · simp [processCARVData, queryLLMSQLAPI, htext]
  · have heq : processCARVData true text
        (queryLLMSQLAPI (some apiKey) (FetchOutcome.httpError status bodyText))
        analysisThrows analysisText =
        "Could not generate on-chain analysis: " ++ ("API error: " ++ toString status) := by
      simp [processCARVData, queryLLMSQLAPI, htext]
    rw [heq]
    intro habs
    have hdata := congrArg String.data habs
    rw [String.data_append] at hdata
    have hnil := List.append_eq_nil.mp hdata
    exact absurd hnil.1 (by decide)

/-- Witness for C5 (amended): a concrete non-empty tweet text. -/
theorem processCARVData_failure_degrades_witness :
    ("gm" : String) ≠ "" ∧
    processCARVData true "gm" (queryLLMSQLAPI (some "key") (FetchOutcome.httpError 500 "boom"))
        false "x" =
      "Could not generate on-chain analysis: " ++ ("API error: " ++ toString 500) :=
  ⟨by decide,
    (processCARVData_failure_degrades "gm" "x" "key" "boom" FetchOutcome.thrown false 500
      (by decide)).2.2.1⟩

/-- One step of `processThread` when the tweet was already visited. -/
theorem processThread_visited (getTweet : String → Option ThreadTweet)
    (fuel : ℕ) (visited : List String) (thread : List ThreadTweet) (t : ThreadTweet)
    (hv : t.id ∈ visited) :
    processThread getTweet (fuel + 1) visited thread t = (visited, thread) := by
  rw [processThread, if_pos hv]

/-- One step of `processThread` on a fresh tweet with no parent reference. -/
theorem processThread_noParent (getTweet : String → Option ThreadTweet)
    (fuel : ℕ) (visited : List String) (thread : List ThreadTweet) (t : ThreadTweet)
    (hv : t.id ∉ visited) (hp : t.inReplyToStatusId = none) :
    processThread getTweet (fuel + 1) visited thread t =
      (t.id :: visited, t :: thread) := by
  rw [processThread, if_neg hv, hp]

/-- One step of `processThread` on a fresh tweet whose parent fetch fails. -/
theorem processThread_parentMissing (getTweet : String → Option ThreadTweet)
    (fuel : ℕ) (visited : List String) (thread : List ThreadTweet) (t : ThreadTweet)
    (pid : String) (hv : t.id ∉ visited) (hp : t.inReplyToStatusId = some pid)
    (hg : getTweet pid = none) :
    processThread getTweet (fuel + 1) visited thread t =
      (t.id :: visited, t :: thread) := by
  rw [processThread, if_neg hv, hp]
  show (match getTweet pid with
    | some parent => processThread getTweet fuel (t.id :: visited) (t :: thread) parent
    | none => (t.id :: visited, t :: thread)) = (t.id :: visited, t :: thread)
  rw [hg]

/-- One step of `processThread` on a fresh tweet whose parent is fetched. -/
theorem processThread_parentFound (getTweet : String → Option ThreadTweet)
    (fuel : ℕ) (visited : List String) (thread : List ThreadTweet) (t : ThreadTweet)
    (pid : String) (parent : ThreadTweet) (hv : t.id ∉ visited)
    (hp : t.inReplyToStatusId = some pid) (hg : getTweet pid = some parent) :
    processThread getTweet (fuel + 1) visited thread t =
      processThread getTweet fuel (t.id :: visited) (t :: thread) parent := by
  rw [processThread, if_neg hv, hp]
  show (match getTweet pid with
    | some parent => processThread getTweet fuel (t.id :: visited) (t :: thread) parent
    | none => (t.id :: visited, t :: thread)) =
    processThread getTweet fuel (t.id :: visited) (t :: thread) parent
  rw [hg]

/-- C8.  Conversation-thread construction always terminates with a thread
of pairwise-distinct tweet ids whose length is bounded by `maxReplies`
(each visited id is recorded and a revisited id stops the walk); on the
concrete two-cycle A → B → A it stops after visiting each tweet once,
returning the thread `[B, A]`. -/
theorem buildConversationThread_spec (getTweet : String → Option ThreadTweet)
    (tweet : ThreadTweet) (maxReplies : ℕ) :
    ((buildConversationThread getTweet tweet maxReplies).map ThreadTweet.id).Nodup ∧
    (buildConversationThread getTweet tweet maxReplies).length ≤ maxReplies ∧
    (buildConversationThread cycleGetTweet ⟨"A", some "B"⟩ 10).map ThreadTweet.id =
      ["B", "A"] := by
  have key : ∀ (fuel : ℕ) (visited : List String) (thread : List ThreadTweet)
      (t : ThreadTweet),
      ((thread.map ThreadTweet.id).Nodup ∧ ∀ x ∈ thread, x.id ∈ visited) →
      (((processThread getTweet fuel visited thread t).2.map ThreadTweet.id).Nodup ∧
        ∀ x ∈ (processThread getTweet fuel visited thread t).2,
          x.id ∈ (processThread getTweet fuel visited thread t).1) ∧
      (processThread getTweet fuel visited thread t).2.length ≤ thread.length + fuel := by
    intro fuel
    induction fuel with
    | zero =>
      intro visited thread t hinv
      exact ⟨hinv, Nat.le_add_right _ _⟩
    | succ n ih =>
      intro visited thread t hinv
      obtain ⟨hnodup, hmem⟩ := hinv
      by_cases hv : t.id ∈ visited
      · rw [processThread_visited getTweet n visited thread t hv]
        refine ⟨⟨hnodup, hmem⟩, ?_⟩
        show thread.length ≤ thread.length + (n + 1)
        omega
      · have hinv2 : (((t :: thread).map ThreadTweet.id).Nodup ∧
            ∀ x ∈ t :: thread, x.id ∈ t.id :: visited) := by
          constructor
          · rw [List.map_cons, List.nodup_cons]
            refine ⟨fun hmm => hv ?_, hnodup⟩
            obtain ⟨x, hx, hxid⟩ := List.mem_map.mp hmm
            exact hxid ▸ hmem x hx
          · intro x hx
            rcases List.mem_cons.mp hx with rfl | hx2
            · exact List.mem_cons_self _ _
            · exact List.mem_cons_of_mem _ (hmem x hx2)
        have hstep : (t :: thread).length ≤ thread.length + (n + 1) := by
          simp only [List.length_cons]
          omega
        cases hpid : t.inReplyToStatusId with
        | none =>
          rw [processThread_noParent getTweet n visited thread t hv hpid]
          exact ⟨hinv2, hstep⟩
        | some parentId =>
          cases hpar : getTweet parentId with
          | none =>
            rw [processThread_parentMissing getTweet n visited thread t parentId hv
              hpid hpar]
            exact ⟨hinv2, hstep⟩
          | some parent =>
            rw [processThread_parentFound getTweet n visited thread t parentId parent
              hv hpid hpar]
            have hrec := ih (t.id :: visited) (t :: thread) parent hinv2
            refine ⟨hrec.1, ?_⟩
            have hlen := hrec.2
            simp only [List.length_cons] at hlen
            omega
  refine ⟨?_, ?_, by decide⟩
  · exact ((key maxReplies [] [] tweet ⟨List.nodup_nil, by intro x hx; cases hx⟩).1).1
  · simpa using (key maxReplies [] [] tweet ⟨List.nodup_nil, by intro x hx; cases hx⟩).2


/-- C9.  The pipeline's tag parsers are total and default to the
non-responding outcome: a model output containing no RESPOND-family tag
parses to IGNORE (or STOP) and the `handleTweet` gate then produces no
post; the ACP service parser yields `useACP = false` on any text without a
(case-insensitive) `[USE_ACP]` tag, on empty text, and on the ambiguous
text carrying both tags (`[SKIP_ACP]` wins); the formatting parser defaults
to not formatting without a `[FORMAT_TWEET]` tag. -/
theorem tag_parsers_default_safe (text : String) (h : noRespondTag text) :
    (parseResponseDecision text = ResponseDecision.IGNORE ∨
     parseResponseDecision text = ResponseDecision.STOP) ∧
    shouldProceedToResponse (parseResponseDecision text).label = false ∧
    parseResponseDecision "" = ResponseDecision.IGNORE ∧
    (∀ s, containsTagCI s "[USE_ACP]" = false →
      parseACPServiceResponse s = ⟨false, none, none⟩) ∧
    (parseACPServiceResponse "").useACP = false ∧
    (parseACPServiceResponse "[SKIP_ACP] [USE_ACP]").useACP = false ∧
    (∀ s, containsTagCI s "[FORMAT_TWEET]" = false →
      parseFormatActionResponseFromText s = ⟨false, none⟩) := by
  obtain ⟨h1, h2, h3, h4⟩ := h
  have hds : parseResponseDecision text = ResponseDecision.IGNORE ∨
      parseResponseDecision text = ResponseDecision.STOP := by
    rw [parseResponseDecision]
    simp only [decisionTags, List.find?, h1, h2, h3, h4]
    cases hI : containsTagCI text "[IGNORE]"
    · cases hS : containsTagCI text "[STOP]"
      · left; rfl
      · right; rfl
    · left; rfl
  refine ⟨hds, ?_, by decide, ?_, by decide, by decide, ?_⟩
  · rcases hds with hd | hd <;> rw [hd] <;> decide
  · intro s hs
    rw [parseACPServiceResponse]
    by_cases hskip : containsTagCI s "[SKIP_ACP]" = true
    · rw [if_pos hskip]
    · rw [if_neg hskip, if_neg (by simp [hs])]
  · intro s hs
    rw [parseFormatActionResponseFromText, if_neg (by simp [hs])]

/-- Witness for C9: the tag-free model output "banana". -/
theorem tag_parsers_default_safe_witness :
    noRespondTag "banana" ∧
    (parseResponseDecision "banana" = ResponseDecision.IGNORE ∨
     parseResponseDecision "banana" = ResponseDecision.STOP) :=
  ⟨⟨by decide, by decide, by decide, by decide⟩,
    (tag_parsers_default_safe "banana" ⟨by decide, by decide, by decide, by decide⟩).1⟩


end ElizaTwitter
